import Mathlib

/-!
Verification of the Resume Optimizer backend (Flask + LLM helpers).

This file gives a shallow embedding, in Lean, of the deterministic parts of
the repository that the verified claims are about:

* `src/utils/skills_matcher.py` — `match_skills` (bucketing of CV skills vs
  job-description skills) and `parse_openai_error`;
* `src/utils/tools.py` — `compare_skills_tool_with_rag` (cosine-similarity
  bucketing over a similarity matrix);
* `src/utils/rag_hot.py` — `split_document_into_chunks` (word-window chunker);
* `src/utils/rag_system.py` — the fallback `RecursiveCharacterTextSplitter.split_text`
  and the score normalization of `RAGSystem.retrieve_with_scores`;
* `src/utils/letter_generator.py` — `parse_openai_error` (the copy with a
  server-error branch);
* `src/app.py` — the `/api/extract-skills`, `/api/match-skills` and
  `/api/assistant` handlers, and the `assistant_memory` session map;
* `src/utils/assistant_agent.py` — the error path of
  `process_assistant_request_with_agent`.

LLM calls, embeddings and vector stores are external non-determinism: they
are modelled as explicit parameters (a similarity matrix, a selection
predicate, an agent outcome), never as stubs of deterministic code.
Python machine-level details that matter are modelled explicitly:
string containment (`in`) as substring search, `str.split()` as a
whitespace split dropping empties, truthiness of strings as non-emptiness.
Word/char positions are natural numbers; a comment marks each place where
Python integer subtraction could go negative and why it does not under the
preconditions of the theorems stated about that code.
-/

namespace ResumeOpt

/-! ### Python string primitives -/

/-- `s.lower()` (ASCII-adequate model of Python lowercasing). -/
def pyLower (s : String) : String := String.mk (s.data.map Char.toLower)

/-- `s.strip()`: remove leading and trailing whitespace. -/
def pyStrip (s : String) : String :=
  String.mk
    (((s.data.dropWhile Char.isWhitespace).reverse.dropWhile Char.isWhitespace).reverse)

/-- `s.lower().strip()`: the normalization applied to every skill in
`match_skills` (src/utils/skills_matcher.py line 175). -/
def normalize (s : String) : String := pyStrip (pyLower s)

/-- Auxiliary for substring search: is the first list a prefix of the second? -/
def isPrefList : List Char → List Char → Bool
  | [], _ => true
  | _ :: _, [] => false
  | a :: as, b :: bs => (a == b) && isPrefList as bs

/-- Auxiliary for substring search: does the needle occur in the haystack? -/
def isSubList (needle : List Char) : List Char → Bool
  | [] => needle.isEmpty
  | c :: t => isPrefList needle (c :: t) || isSubList needle t

/-- Python `needle in hay` on strings (substring containment; the empty
string is contained in everything, as in Python). -/
def pyIn (needle hay : String) : Bool := isSubList needle.toList hay.toList

/-- Accumulator pass for `pySplit`: `acc` holds the current word reversed. -/
def splitWsAux : List Char → List Char → List String
  | [], acc => if acc.isEmpty then [] else [String.mk acc.reverse]
  | c :: t, acc =>
    if c.isWhitespace then
      (if acc.isEmpty then [] else [String.mk acc.reverse]) ++ splitWsAux t []
    else splitWsAux t (c :: acc)

/-- Python `text.split()`: split on whitespace runs, dropping empty pieces. -/
def pySplit (text : String) : List String := splitWsAux text.data []

/-! ### skills_matcher.match_skills (src/utils/skills_matcher.py lines 163-288)

Python builds `cv_normalized = {skill.lower().strip(): skill for skill in cv_skills}`:
an insertion-ordered dict keyed by the normalized skill, where a later skill
with the same key overwrites the value but keeps the key position.  We model
it as an association list built by the same left-to-right insertion. -/

/-- One step of Python dict-comprehension insertion: replace the value if the
key is present (keeping its position), else append the pair. -/
def dictInsert (d : List (String × String)) (k v : String) : List (String × String) :=
  if d.any (fun p => p.1 == k) then
    d.map (fun p => if p.1 == k then (k, v) else p)
  else d ++ [(k, v)]

/-- `{skill.lower().strip(): skill for skill in skills}` as an ordered
association list. -/
def buildNormDict (skills : List String) : List (String × String) :=
  skills.foldl (fun d s => dictInsert d (normalize s) s) []

/-- The relation tested by the inner loops of `match_skills`:
`cv_key == job_key or cv_key in job_key or job_key in cv_key`. -/
def skillRel (cvKey jobKey : String) : Bool :=
  cvKey == jobKey || pyIn cvKey jobKey || pyIn jobKey cvKey

/-- The inner `for job_key, job_original in job_normalized.items()` loop of
`match_skills` (lines 186-204): return the first related job entry together
with the match type (`"exact"` before `"partial"`, as in the `if`/`elif`). -/
def findJobMatch (cvKey : String) : List (String × String) → Option (String × String)
  | [] => none
  | (jk, jo) :: rest =>
    if cvKey == jk then some (jo, "exact")
    else if pyIn cvKey jk || pyIn jk cvKey then some (jo, "partial")
    else findJobMatch cvKey rest

/-- The `stats` dictionary returned by `match_skills` (lines 279-287). -/
structure MatchStats where
  total_cv : Nat
  total_job : Nat
  matched_count : Nat
  missing_count : Nat
  cv_only_count : Nat
  interesting_count : Nat
  match_percentage : ℚ
  deriving Repr, DecidableEq

/-- The dictionary returned by `match_skills` (lines 274-288). -/
structure MatchResult where
  matched : List String
  cv_only : List String
  job_only : List String
  interesting : List String
  stats : MatchStats
  deriving Repr, DecidableEq

/-- Python `round(x, 1)`.  (Python rounds floats half-to-even; `round` on `ℚ`
rounds half up.  The two agree away from exact odd multiples of 0.05, in
particular on every value this development evaluates.) -/
def pyRound1 (q : ℚ) : ℚ := (round (q * 10) : ℤ) / 10

/-- The `matched` list built by the first loop of `match_skills`
(lines 184-205): one `(cv_skill, job_skill, match_type)` entry per cv dict
entry whose key relates to some job key (the loop appends and `break`s on
the first hit, i.e. `findJobMatch`). -/
def matchedEntries (cvDict jobDict : List (String × String)) :
    List (String × String × String) :=
  cvDict.filterMap
    (fun p => (findJobMatch p.1 jobDict).map (fun q => (p.2, q.1, q.2)))

/-- The `cv_only` list built by the first loop of `match_skills`
(lines 206-207): the dict values whose key relates to no job key.  Together
with `matchedEntries` this is exactly the loop that appends each entry to
one of the two lists. -/
def cvOnlyLoop (cvDict jobDict : List (String × String)) : List String :=
  cvDict.filterMap
    (fun p => if (findJobMatch p.1 jobDict).isSome then none else some p.2)

/-- The `job_only` list built by the second loop of `match_skills`
(lines 210-217). -/
def jobOnlyLoop (cvDict jobDict : List (String × String)) : List String :=
  jobDict.filterMap
    (fun q => if cvDict.any (fun c => skillRel c.1 q.1) then none else some q.2)

/-- `match_skills(cv_skills, job_skills, ...)` (lines 163-288).

The only non-deterministic part is the LLM pass that picks which `cv_only`
skills are "interesting" (lines 221-272).  On every code path `interesting`
is an order-preserving sub-selection of the `cv_only` list: the JSON-parse
path keeps the skills whose normalized form the LLM returned, and all
fallback paths (no api key / no context / LLM failure / JSON error) keep all
of them (`cv_only.copy()`).  We therefore model that pass as a filter by an
arbitrary predicate `interestingOf` (identically true for the fallbacks). -/
def match_skills (cv_skills job_skills : List String)
    (interestingOf : String → Bool) : MatchResult :=
  let cvDict := buildNormDict cv_skills
  let jobDict := buildNormDict job_skills
  let jobOnly := jobOnlyLoop cvDict jobDict
  -- lines 221-272: interesting selection (see docstring)
  let interesting := (cvOnlyLoop cvDict jobDict).filter interestingOf
  { matched := (matchedEntries cvDict jobDict).map (fun t => t.1)
    cv_only := (cvOnlyLoop cvDict jobDict).filter (fun s => !(interesting.contains s))
    job_only := jobOnly
    interesting := interesting
    stats :=
      { total_cv := cv_skills.length
        total_job := job_skills.length
        matched_count := (matchedEntries cvDict jobDict).length
        missing_count := jobOnly.length
        cv_only_count :=
          ((cvOnlyLoop cvDict jobDict).filter (fun s => !(interesting.contains s))).length
        interesting_count := interesting.length
        match_percentage :=
          if job_skills.length ≠ 0 then
            pyRound1 (((matchedEntries cvDict jobDict).length : ℚ)
              / (job_skills.length : ℚ) * 100)
          else 0 } }

/-! ### tools.compare_skills_tool_with_rag (src/utils/tools.py lines 250-385)

The OpenAI embeddings of the two skill lists are external: we model the
resulting cosine-similarity matrix as an explicit parameter
`sim : Nat → Nat → ℚ` (entry `similarity_matrix[i][j]`).  The optional
`jd_vectorstore` semantic search used for `interesting` is likewise external
and modelled by a predicate `jdNear` (`false` everywhere when the store is
absent, exactly as the code then leaves `interesting` empty).  `job_only`
follows the fallback branch (no `cv_vectorstore`, lines 342-347). -/

/-- Result of `compare_skills_tool_with_rag`; `matchedPairs` records the
index pairs `(i, j)` appended to `matched` by the double loop. -/
structure RagResult where
  matchedPairs : List (Nat × Nat)
  matched : List String
  cv_only : List String
  job_only : List String
  interesting : List String
  deriving Repr, DecidableEq

/-- The `matched` index pairs of the double loop of
`compare_skills_tool_with_rag` (lines 313-324): `(i, j)` is appended exactly
when `similarity_matrix[i][j] >= similarity_threshold`. -/
def ragPairs (m n : Nat) (sim : Nat → Nat → ℚ) (thr : ℚ) : List (Nat × Nat) :=
  (List.range m).flatMap (fun i =>
    (List.range n).filterMap (fun j =>
      if thr ≤ sim i j then some (i, j) else none))

/-- The `cv_only` list of `compare_skills_tool_with_rag` (lines 327-330):
cv skills whose index was never added to `matched_cv_indices`. -/
def ragCvOnly (cv_skills : List String) (n : Nat)
    (sim : Nat → Nat → ℚ) (thr : ℚ) : List String :=
  (List.range cv_skills.length).filterMap (fun i =>
    if (ragPairs cv_skills.length n sim thr).any (fun p => p.1 == i) then none
    else some (cv_skills.getD i ""))

/-- `compare_skills_tool_with_rag(cv_skills, job_skills, ..., similarity_threshold)`
for non-empty inputs (the empty case returns early at lines 286-295).
Default `similarity_threshold` in the source is `0.7`.  `job_only` follows
the fallback branch without a cv vector store (lines 342-347); the
jd-vectorstore pass over `cv_only[:20]` (lines 349-355) is the external
predicate `jdNear`. -/
def compare_skills_tool_with_rag (cv_skills job_skills : List String)
    (sim : Nat → Nat → ℚ) (jdNear : String → Bool)
    (similarity_threshold : ℚ) : RagResult :=
  let m := cv_skills.length
  let n := job_skills.length
  let pairs := ragPairs m n sim similarity_threshold
  let cvOnlyList := ragCvOnly cv_skills n sim similarity_threshold
  let jobOnlyList := (List.range n).filterMap (fun j =>
    if pairs.any (fun p => p.2 == j) then none else some (job_skills.getD j ""))
  let interesting := (cvOnlyList.take 20).filter jdNear
  { matchedPairs := pairs
    matched := pairs.map (fun p => cv_skills.getD p.1 "")
    cv_only := cvOnlyList.filter (fun s => !(interesting.contains s))
    job_only := jobOnlyList
    interesting := interesting }

/-! ### rag_hot.split_document_into_chunks (src/utils/rag_hot.py lines 13-62) -/

/-- One chunk produced by `split_document_into_chunks`. -/
structure Chunk where
  id : Nat
  text : String
  start_word : Nat
  end_word : Nat
  word_count : Nat
  deriving Repr, DecidableEq

/-- The `while start < len(words)` loop of `split_document_into_chunks`
(lines 41-60), written with explicit fuel so the definition is total; the
termination theorem below shows the fuel used by `split_document_into_chunks`
suffices whenever `chunk_size > overlap`.

Word positions are `Nat`.  Python computes `start = end - overlap` and
compares `start >= len(words) - overlap`; under `overlap < chunk_size`
(the precondition of every theorem about this code) both subtractions stay
non-negative — `end ≥ min(chunk_size, len(words)) > overlap` — so `Nat`
subtraction agrees with Python's integer subtraction. -/
def chunkLoop (words : List String) (chunk_size overlap : Nat) :
    Nat → Nat → Nat → List Chunk
  | 0, _, _ => []
  | fuel + 1, start, chunk_id =>
    if start < words.length then
      let e := min (start + chunk_size) words.length
      let ch : Chunk :=
        { id := chunk_id
          text := " ".intercalate ((words.drop start).take (e - start))
          start_word := start
          end_word := e
          word_count := e - start }
      -- `start = end - overlap`; `if start >= len(words) - overlap: break`
      if words.length - overlap ≤ e - overlap then [ch]
      else ch :: chunkLoop words chunk_size overlap fuel (e - overlap) (chunk_id + 1)
    else []

/-- `split_document_into_chunks(text, chunk_size=500, overlap=50)`
(lines 13-62).  Documents of at most `chunk_size` words are returned as a
single chunk (lines 28-36); otherwise the windowed loop runs. -/
def split_document_into_chunks (text : String) (chunk_size overlap : Nat) :
    List Chunk :=
  let words := pySplit text
  if words.length ≤ chunk_size then
    [{ id := 0
       text := text
       start_word := 0
       end_word := words.length
       word_count := words.length }]
  else chunkLoop words chunk_size overlap words.length 0 0

/-! ### rag_system fallback RecursiveCharacterTextSplitter.split_text
(src/utils/rag_system.py lines 15-27) -/

/-- The fallback splitter loop: `while start < len(text): end = start +
chunk_size; chunks.append(text[start:end]); start = end - chunk_overlap`.
Again written with fuel; under `chunk_overlap < chunk_size` the new start is
`start + (chunk_size - chunk_overlap)`, strictly increasing, and `Nat`
subtraction agrees with Python. -/
def splitTextLoop (text : List Char) (chunk_size chunk_overlap : Nat) :
    Nat → Nat → List String
  | 0, _ => []
  | fuel + 1, start =>
    if start < text.length then
      let piece := String.mk ((text.drop start).take chunk_size)
      piece :: splitTextLoop text chunk_size chunk_overlap fuel
        (start + chunk_size - chunk_overlap)
    else []

/-- `RecursiveCharacterTextSplitter.split_text(text)` of the import
fallback class (lines 20-27). -/
def split_text (chunk_size chunk_overlap : Nat) (text : String) : List String :=
  splitTextLoop text.toList chunk_size chunk_overlap (text.toList.length + 1) 0

/-! ### RAGSystem.retrieve_with_scores (src/utils/rag_system.py lines 238-287)

The vector store returns raw scores (Chroma distances); floats are modelled
as exact rationals.  The per-score normalization (lines 267-281) is the pure
part we embed. -/

/-- The raw-score → similarity conversion of `retrieve_with_scores`,
including the final clamp `max(0.0, min(1.0, similarity))`. -/
def chromaSimilarity (score : ℚ) : ℚ :=
  let similarity :=
    if score < 0 then 0
    else if score ≤ 1 then 1 - score
    else if score ≤ 2 then 1 - score / 2
    else max 0 (1 / (1 + score))
  max 0 (min 1 similarity)

/-- `retrieve_with_scores` maps the conversion over whatever
`(document, raw_score)` pairs the underlying store returned; documents are
modelled by their page content. -/
def retrieve_with_scores (results : List (String × ℚ)) : List (String × ℚ) :=
  results.map (fun p => (p.1, chromaSimilarity p.2))

/-! ### parse_openai_error — both copies
(src/utils/letter_generator.py lines 11-72, src/utils/skills_matcher.py lines 11-48)

Both functions inspect `str(error)`; we take that string as the input.
Python error codes are the ints 401/429/500 or the strings "billing"/"model",
or None. -/

/-- An `error_code` value: an HTTP-style integer or a string tag. -/
inductive ErrCode where
  | num (n : Nat)
  | tag (s : String)
  deriving Repr, DecidableEq

/-- The record `{"error_code": ..., "error_message": ..., "user_message": ...}`. -/
structure ErrorInfo where
  error_code : Option ErrCode
  error_message : String
  user_message : String
  deriving Repr, DecidableEq

/-- `"401" in error_str or "invalid_api_key" in error_str.lower() or
"Incorrect API key" in error_str` (both copies, first branch). -/
def cond401 (s : String) : Bool :=
  pyIn ("401") s || pyIn ("invalid_api_key") (pyLower s) || pyIn ("Incorrect API key") s

/-- `"429" in error_str or "rate_limit" in error_str.lower()`. -/
def cond429 (s : String) : Bool :=
  pyIn ("429") s || pyIn ("rate_limit") (pyLower s)

/-- `"500" in error_str or "internal_error" in error_str.lower()`
(letter_generator.py only). -/
def cond500 (s : String) : Bool :=
  pyIn ("500") s || pyIn ("internal_error") (pyLower s)

/-- `"insufficient_quota" in error_str.lower() or "billing" in error_str.lower()`. -/
def condBilling (s : String) : Bool :=
  pyIn ("insufficient_quota") (pyLower s) || pyIn ("billing") (pyLower s)

/-- `"model" in error_str.lower() and ("not found" in ... or "invalid" in ...)`
(letter_generator.py only). -/
def condModel (s : String) : Bool :=
  pyIn ("model") (pyLower s) && (pyIn ("not found") (pyLower s) || pyIn ("invalid") (pyLower s))

/-- The generic fallback `user_message` both copies start from. -/
def genericUserMsg : String :=
  "Une erreur s\x27est produite lors de l\x27appel à l\x27API OpenAI."

/-- The 401 user message (identical in both copies). -/
def userMsg401 : String :=
  "Erreur: Clé API OpenAI invalide.\n\n" ++
  "Votre clé API n\x27est pas valide ou a expiré. Veuillez:\n" ++
  "1. Vérifier que vous avez copié la clé complète\n" ++
  "2. Obtenir une nouvelle clé sur: https://platform.openai.com/account/api-keys\n" ++
  "3. Vérifier que votre compte OpenAI a des crédits disponibles"

/-- The 429 user message. -/
def userMsg429 : String :=
  "Erreur: Limite de taux dépassée.\n\n" ++
  "Vous avez fait trop de requêtes. Veuillez attendre quelques instants avant de réessayer."

/-- The 500 user message (letter_generator.py only). -/
def userMsg500 : String :=
  "Erreur: Problème serveur OpenAI.\n\n" ++
  "Le serveur OpenAI rencontre des difficultés. Veuillez réessayer dans quelques instants."

/-- The billing user message. -/
def userMsgBilling : String :=
  "Erreur: Crédits insuffisants.\n\n" ++
  "Votre compte OpenAI n\x27a plus de crédits disponibles. " ++
  "Veuillez ajouter des crédits sur: https://platform.openai.com/account/billing"

/-- The invalid-model user message (letter_generator.py only). -/
def userMsgModel : String :=
  "Erreur: Modèle invalide.\n\n" ++
  "Le modèle sélectionné n\x27est pas disponible. Veuillez choisir un autre modèle."

/-- `parse_openai_error` from src/utils/letter_generator.py (lines 11-72):
the copy with 401 / 429 / **500** / billing / model branches, in that
`if`/`elif` order. -/
def lg_parse_openai_error (error_str : String) : ErrorInfo :=
  if cond401 error_str then
    { error_code := some (.num 401), error_message := error_str, user_message := userMsg401 }
  else if cond429 error_str then
    { error_code := some (.num 429), error_message := error_str, user_message := userMsg429 }
  else if cond500 error_str then
    { error_code := some (.num 500), error_message := error_str, user_message := userMsg500 }
  else if condBilling error_str then
    { error_code := some (.tag "billing"), error_message := error_str, user_message := userMsgBilling }
  else if condModel error_str then
    { error_code := some (.tag "model"), error_message := error_str, user_message := userMsgModel }
  else
    { error_code := none, error_message := error_str, user_message := genericUserMsg }

/-- `parse_openai_error` from src/utils/skills_matcher.py (lines 11-48):
only 401 / 429 / billing branches — **no server-error branch**. -/
def sm_parse_openai_error (error_str : String) : ErrorInfo :=
  if cond401 error_str then
    { error_code := some (.num 401), error_message := error_str, user_message := userMsg401 }
  else if cond429 error_str then
    { error_code := some (.num 429), error_message := error_str, user_message := userMsg429 }
  else if condBilling error_str then
    { error_code := some (.tag "billing"), error_message := error_str, user_message := userMsgBilling }
  else
    { error_code := none, error_message := error_str, user_message := genericUserMsg }

/-! ### app.py: /api/extract-skills and /api/match-skills
(src/app.py lines 221-264 and 267-319)

Both handlers call the skills_matcher functions with a `temperature=`
keyword argument.  Python raises `TypeError` at such a call when the callee
does not accept the keyword; the endpoint-level `except Exception` then
turns it into a 500 response via `parse_openai_error`.  We model the
keyword-argument check explicitly from the source signatures. -/

/-- Keyword parameters accepted by `skills_matcher.extract_skills`
(def at src/utils/skills_matcher.py line 51). -/
def extract_skills_params : List String := ["text", "api_key", "text_type", "model"]

/-- Keyword parameters accepted by `skills_matcher.match_skills`
(def at src/utils/skills_matcher.py line 163). -/
def match_skills_params : List String :=
  ["cv_skills", "job_skills", "cv_text", "job_text", "api_key", "model"]

/-- Keyword arguments passed by `api_extract_skills` (src/app.py lines 239-245). -/
def api_extract_skills_kwargs : List String :=
  ["text", "text_type", "api_key", "model", "temperature"]

/-- Keyword arguments passed by `api_match_skills` (src/app.py lines 287-295). -/
def api_match_skills_kwargs : List String :=
  ["cv_skills", "job_skills", "api_key", "cv_text", "job_text", "model", "temperature"]

/-- A Python call with keyword arguments raises `TypeError` when some passed
keyword is not among the callee's parameters (no callee here has `**kwargs`). -/
def callRaisesTypeError (accepted passed : List String) : Bool :=
  passed.any (fun k => !(accepted.contains k))

/-- `str(e)` of the `TypeError` raised by `extract_skills(..., temperature=...)`. -/
def typeErrorMsgExtract : String :=
  "extract_skills() got an unexpected keyword argument \x27temperature\x27"

/-- `str(e)` of the `TypeError` raised by `match_skills(..., temperature=...)`. -/
def typeErrorMsgMatch : String :=
  "match_skills() got an unexpected keyword argument \x27temperature\x27"

/-- A JSON response reduced to the fields the claims are about. -/
structure ApiResponse where
  status : Nat
  error : Option String
  deriving Repr, DecidableEq

/-- The control flow of `api_extract_skills` (src/app.py lines 221-264) for a
POST body carrying `text` and `api_key` (empty string when absent — Python
truthiness of strings is non-emptiness). -/
def api_extract_skills (api_key text : String) : ApiResponse :=
  if api_key == "" then { status := 400, error := some ("API key is required") }
  else if text == "" then { status := 400, error := some ("Text is required") }
  else if callRaisesTypeError extract_skills_params api_extract_skills_kwargs then
    -- the TypeError propagates to the endpoint-level `except Exception` (line 258)
    { status := 500, error := some ((lg_parse_openai_error typeErrorMsgExtract).user_message) }
  else
    -- unreachable in the current source: the call would have to succeed
    { status := 200, error := none }

/-- The control flow of `api_match_skills` (src/app.py lines 267-319);
`cv_skills`/`job_skills` are the request lists (empty when absent). -/
def api_match_skills (cv_skills job_skills : List String) (api_key : String) :
    ApiResponse :=
  if api_key == "" then { status := 400, error := some ("API key is required") }
  else if cv_skills.isEmpty || job_skills.isEmpty then
    { status := 400, error := some ("Both CV skills and job skills are required") }
  else if callRaisesTypeError match_skills_params api_match_skills_kwargs then
    { status := 500, error := some ((lg_parse_openai_error typeErrorMsgMatch).user_message) }
  else
    { status := 200, error := none }

/-! ### app.py: the assistant_memory session map (src/app.py line 66)

`assistant_memory = {}` maps session ids to `ConversationBufferMemory`
objects.  Grepping the whole backend, the only statements that touch it are
in `api_assistant` (lines 351-357): membership test, insert-if-absent,
read.  No endpoint contains a `del`, `.pop`, `.clear` or reassignment of
`assistant_memory`.  We model the effect of each HTTP endpoint of app.py on
the map's key set. -/

/-- The HTTP endpoints defined in src/app.py. -/
inductive Endpoint where
  | index
  | optimizeCv
  | generateLetter
  | extractSkills
  | matchSkills
  | assistant
  | upload
  | parsePdf
  | downloadPdf
  deriving Repr, DecidableEq

/-- Effect of one request to an endpoint on the key set (insertion-ordered)
of `assistant_memory`.  Only `/api/assistant` touches the map: it inserts
the request's `session_id` when absent (src/app.py lines 351-355); values
are mutated in place but entries are never removed. -/
def assistantMemoryStep (ep : Endpoint) (session_id : String)
    (keys : List String) : List String :=
  match ep with
  | .assistant => if keys.contains session_id then keys else keys ++ [session_id]
  | _ => keys

/-! ### assistant_agent.process_assistant_request_with_agent — error path
(src/utils/assistant_agent.py lines 155-598) and the /api/assistant handler
(src/app.py lines 322-411)

The body of `process_assistant_request_with_agent` is one LLM-driven
computation wrapped in a single `try`; the parameter `optimized_cv` is never
reassigned in the body.  We model the body's outcome as external
non-determinism: either a successful result or a raised exception with its
`str(e)` message; the `except` clause (lines 592-598) is embedded exactly. -/

/-- Outcome of the agent body: success (with the action/CV/explanation it
computed) or an exception with message `str(e)`. -/
inductive AgentOutcome where
  | ok (action : Option String) (updated_cv : String) (explanation : String)
      (sources : List String)
  | exn (msg : String)
  deriving Repr, DecidableEq

/-- The dictionary returned by `process_assistant_request_with_agent`. -/
structure AssistantResult where
  error : Option String
  action : Option String
  updated_cv : String
  explanation : Option String
  deriving Repr, DecidableEq

/-- `process_assistant_request_with_agent(..., optimized_cv, ...)`: on
success the try-block's return value is passed through (it carries no
`error` key); on an exception the except clause returns
`{"error": str(e), "action": None, "updated_cv": optimized_cv,
"explanation": None}` (lines 592-598). -/
def process_assistant_request_with_agent (optimized_cv : String)
    (outcome : AgentOutcome) : AssistantResult :=
  match outcome with
  | .ok action updated_cv explanation _ =>
    { error := none, action := action, updated_cv := updated_cv,
      explanation := some explanation }
  | .exn msg =>
    { error := some msg, action := none, updated_cv := optimized_cv,
      explanation := none }

/-- The `/api/assistant` response fields the claim is about. -/
structure AssistantResponse where
  status : Nat
  success : Bool
  updated_cv : String
  deriving Repr, DecidableEq

/-- Python truthiness of a string: non-empty. -/
def pyTruthy (s : String) : Bool := !s.isEmpty

/-- The tail of `api_assistant` (src/app.py lines 386-401): after the agent
call, `if result.get('error'):` (string truthiness) selects the 500 error
response, which echoes the handler's own `optimized_cv` variable; otherwise
the 200 response returns `result.get('updated_cv', optimized_cv)`. -/
def api_assistant_respond (optimized_cv : String) (result : AssistantResult) :
    AssistantResponse :=
  match result.error with
  | some msg =>
    if pyTruthy msg then
      { status := 500, success := false, updated_cv := optimized_cv }
    else
      { status := 200, success := true, updated_cv := result.updated_cv }
  | none =>
    { status := 200, success := true, updated_cv := result.updated_cv }

/-! ## Theorems -/

/-- Claim C2 evidence (code_bug): because `api_extract_skills` and
`api_match_skills` pass a `temperature=` keyword that neither
`extract_skills` nor `match_skills` accepts, every request that passes the
handlers' own validation (non-empty api key, non-empty text / skill lists)
raises `TypeError` at the call and is answered with HTTP 500 and the generic
OpenAI-error message — the extraction/matching is never invoked and no 200
response is reachable, contrary to the claim. -/
theorem apiSkillsEndpointsAlwaysRaise (api_key text : String)
    (hk : (api_key == "") = false) (ht : (text == "") = false)
    (cv job : List String) (hcv : cv.isEmpty = false) (hjob : job.isEmpty = false) :
    api_extract_skills api_key text = { status := 500, error := some genericUserMsg } ∧
    api_match_skills cv job api_key = { status := 500, error := some genericUserMsg } := by
  have hraise : callRaisesTypeError extract_skills_params api_extract_skills_kwargs = true := by
    decide
  have hraise2 : callRaisesTypeError match_skills_params api_match_skills_kwargs = true := by
    decide
  have hmsg : (lg_parse_openai_error typeErrorMsgExtract).user_message = genericUserMsg := by
    decide
  have hmsg2 : (lg_parse_openai_error typeErrorMsgMatch).user_message = genericUserMsg := by
    decide
  constructor
  · simp [api_extract_skills, hk, ht, hraise, hmsg]
  · simp [api_match_skills, hk, hcv, hjob, hraise2, hmsg2]

/-- Witness for C2: the concrete failing input — a POST with api key
`"sk-test"` and text `"python developer"` (resp. skill lists) — is answered
with HTTP 500. -/
theorem apiSkillsEndpointsAlwaysRaiseWitness :
    api_extract_skills ("sk-test") ("python developer")
      = { status := 500, error := some genericUserMsg } ∧
    api_match_skills ["Python"] ["SQL"] ("sk-test")
      = { status := 500, error := some genericUserMsg } :=
  apiSkillsEndpointsAlwaysRaise ("sk-test") ("python developer")
    (by decide) (by decide) ["Python"] ["SQL"] (by decide) (by decide)

/-- Claim C3 counterexample: the claim asserts the backend provides an
explicit delete call that removes a session's entry from `assistant_memory`.
No endpoint removes anything from the map: for every endpoint, session id
and key set, every existing key survives the request.  In particular no
endpoint is a delete call, so the claim as stated is false. -/
theorem assistantMemoryNoDeleteCall :
    ¬ ∃ (ep : Endpoint) (sid k : String) (keys : List String),
        k ∈ keys ∧ k ∉ assistantMemoryStep ep sid keys := by
  rintro ⟨ep, sid, k, keys, hmem, hnot⟩
  apply hnot
  cases ep <;> simp only [assistantMemoryStep] <;>
    first
      | exact hmem
      | (split
         · exact hmem
         · exact List.mem_append_left _ hmem)

/-- Claim C3 amended: the backend provides **no** delete call for
`assistant_memory`; no endpoint ever removes an entry, and every endpoint
either leaves the key set unchanged or appends the request's `session_id` —
entries only accumulate (until process restart). -/
theorem assistantMemoryEntriesPersist (ep : Endpoint) (sid : String)
    (keys : List String) :
    (∀ k ∈ keys, k ∈ assistantMemoryStep ep sid keys) ∧
    (assistantMemoryStep ep sid keys = keys ∨
     assistantMemoryStep ep sid keys = keys ++ [sid]) := by
  constructor
  · intro k hk
    cases ep <;> simp only [assistantMemoryStep] <;>
      first
        | exact hk
        | (split
           · exact hk
           · exact List.mem_append_left _ hk)
  · cases ep <;> simp only [assistantMemoryStep] <;>
      first
        | exact Or.inl trivial
        | exact Or.inl rfl
        | (split
           · exact Or.inl rfl
           · exact Or.inr rfl)

/-- Witness for C3 (amended): an existing session key `"alice"` survives an
`/api/assistant` request for session `"bob"`. -/
theorem assistantMemoryEntriesPersistWitness :
    ("alice") ∈ assistantMemoryStep Endpoint.assistant ("bob") [("alice")] :=
  (assistantMemoryEntriesPersist Endpoint.assistant ("bob") [("alice")]).1
    ("alice") (by decide)

/-- Claim C9: the assistant is atomic on error.  Whenever the body of
`process_assistant_request_with_agent` raises, the except clause returns
`updated_cv` equal to the input `optimized_cv` and `action` `None`, and the
`/api/assistant` handler echoes that unchanged CV; when the exception
message is truthy (non-empty, as `str(e)` is for the exceptions the code can
raise) the response is the 500 error response. -/
theorem assistantErrorKeepsCv (optimized_cv msg : String) :
    (process_assistant_request_with_agent optimized_cv (.exn msg)).updated_cv
      = optimized_cv ∧
    (process_assistant_request_with_agent optimized_cv (.exn msg)).action = none ∧
    (api_assistant_respond optimized_cv
        (process_assistant_request_with_agent optimized_cv (.exn msg))).updated_cv
      = optimized_cv ∧
    (pyTruthy msg = true →
      api_assistant_respond optimized_cv
          (process_assistant_request_with_agent optimized_cv (.exn msg))
        = { status := 500, success := false, updated_cv := optimized_cv }) := by
  refine ⟨rfl, rfl, ?_, ?_⟩
  · simp only [api_assistant_respond, process_assistant_request_with_agent]
    split <;> rfl
  · intro h
    simp only [api_assistant_respond, process_assistant_request_with_agent, h]
    rfl

/-- Witness for C9: a failing request with message `"boom"` on CV `"CV"`
yields the 500 error response carrying the unchanged CV. -/
theorem assistantErrorKeepsCvWitness :
    pyTruthy ("boom") = true ∧
    api_assistant_respond ("CV")
        (process_assistant_request_with_agent ("CV") (.exn ("boom")))
      = { status := 500, success := false, updated_cv := ("CV") } :=
  ⟨by decide, (assistantErrorKeepsCv ("CV") ("boom")).2.2.2 (by decide)⟩

/-- Claim C10: `match_skills` can report a match percentage above 100:
`matched_count` counts one match per distinct normalized CV skill, but the
percentage divides it by the number of job skills.  Three CV skills each
containing the single job skill give 300.0. -/
theorem matchPercentageCanExceed100 :
    ∃ (cv job : List String) (sel : String → Bool),
      100 < (match_skills cv job sel).stats.match_percentage := by
  refine ⟨["python expert", "python dev", "python guru"], ["Python"],
    fun _ => true, ?_⟩
  have h : (match_skills ["python expert", "python dev", "python guru"]
        ["Python"] (fun _ => true)).stats.match_percentage
      = pyRound1 ((((3 : Nat) : ℚ)) / (((1 : Nat) : ℚ)) * 100) := rfl
  rw [h]
  simp only [pyRound1]
  have h2 : (((3 : Nat) : ℚ)) / (((1 : Nat) : ℚ)) * 100 * 10 = ((3000 : ℤ) : ℚ) := by
    push_cast
    norm_num
  rw [h2, round_intCast]
  norm_num

/-- The converted similarity is never negative (outer clamp, lower side). -/
theorem chromaSimilarity_nonneg (s : ℚ) : 0 ≤ chromaSimilarity s := by
  unfold chromaSimilarity
  exact le_max_left _ _

/-- The converted similarity is never above 1 (outer clamp, upper side). -/
theorem chromaSimilarity_le_one (s : ℚ) : chromaSimilarity s ≤ 1 := by
  unfold chromaSimilarity
  exact max_le (by norm_num) (min_le_left _ _)

/-- Claim C8: every similarity score returned by `retrieve_with_scores` lies
in `[0, 1]`, whatever raw score the vector store produced; and the raw-score
to similarity mapping is monotonically non-increasing on each of the four
raw-score ranges the code distinguishes (negative, `[0, 1]`, `(1, 2]`,
`> 2`). -/
theorem retrieveWithScoresNormalized (results : List (String × ℚ)) :
    (∀ p ∈ retrieve_with_scores results, 0 ≤ p.2 ∧ p.2 ≤ 1) ∧
    (∀ s t : ℚ, s ≤ t → t < 0 → chromaSimilarity t ≤ chromaSimilarity s) ∧
    (∀ s t : ℚ, 0 ≤ s → s ≤ t → t ≤ 1 → chromaSimilarity t ≤ chromaSimilarity s) ∧
    (∀ s t : ℚ, 1 < s → s ≤ t → t ≤ 2 → chromaSimilarity t ≤ chromaSimilarity s) ∧
    (∀ s t : ℚ, 2 < s → s ≤ t → chromaSimilarity t ≤ chromaSimilarity s) := by
  refine ⟨?_, ?_, ?_, ?_, ?_⟩
  · intro p hp
    simp only [retrieve_with_scores, List.mem_map] at hp
    obtain ⟨q, _, rfl⟩ := hp
    exact ⟨chromaSimilarity_nonneg _, chromaSimilarity_le_one _⟩
  · intro s t _ ht
    have h : chromaSimilarity t = 0 := by
      unfold chromaSimilarity
      rw [if_pos ht]
      norm_num
    rw [h]
    exact chromaSimilarity_nonneg s
  · intro s t h0 hst ht1
    have hs : chromaSimilarity s = max 0 (min 1 (1 - s)) := by
      unfold chromaSimilarity
      rw [if_neg (by linarith), if_pos (by linarith)]
    have ht : chromaSimilarity t = max 0 (min 1 (1 - t)) := by
      unfold chromaSimilarity
      rw [if_neg (by linarith), if_pos (by linarith)]
    rw [hs, ht]
    exact max_le_max le_rfl (min_le_min le_rfl (by linarith))
  · intro s t h1 hst ht2
    have hs : chromaSimilarity s = max 0 (min 1 (1 - s / 2)) := by
      unfold chromaSimilarity
      rw [if_neg (by linarith), if_neg (by linarith), if_pos (by linarith)]
    have ht : chromaSimilarity t = max 0 (min 1 (1 - t / 2)) := by
      unfold chromaSimilarity
      rw [if_neg (by linarith), if_neg (by linarith), if_pos (by linarith)]
    rw [hs, ht]
    exact max_le_max le_rfl (min_le_min le_rfl (by linarith))
  · intro s t h2 hst
    have hs : chromaSimilarity s = max 0 (min 1 (max 0 (1 / (1 + s)))) := by
      unfold chromaSimilarity
      rw [if_neg (by linarith), if_neg (by linarith), if_neg (by linarith)]
    have ht : chromaSimilarity t = max 0 (min 1 (max 0 (1 / (1 + t)))) := by
      unfold chromaSimilarity
      rw [if_neg (by linarith), if_neg (by linarith), if_neg (by linarith)]
    rw [hs, ht]
    have hdiv : 1 / (1 + t) ≤ 1 / (1 + s) :=
      one_div_le_one_div_of_le (by linarith) (by linarith)
    exact max_le_max le_rfl (min_le_min le_rfl (max_le_max le_rfl hdiv))

/-- Witness for C8: on the range `[0, 1]`, a raw score of 1 yields at most
the similarity of a raw score of 0. -/
theorem retrieveWithScoresNormalizedWitness :
    chromaSimilarity 1 ≤ chromaSimilarity 0 :=
  (retrieveWithScoresNormalized []).2.2.1 0 1 (by decide) (by decide) (by decide)

/-- Claim C5: both copies of `parse_openai_error` always return a user-facing
message; a string matching the invalid-key / rate-limit / quota / server
categories (in the source's `if`/`elif` order) is mapped to error code 401,
429, `"billing"`, 500 respectively, with a category-specific message rather
than the generic fallback — except that the skills_matcher.py copy has no
server-error branch, so a pure server-error string falls through to the
generic message there. -/
theorem parseOpenaiErrorCategories (s : String) :
    ((lg_parse_openai_error s).user_message ≠ "" ∧
     (sm_parse_openai_error s).user_message ≠ "") ∧
    (cond401 s = true →
      (lg_parse_openai_error s).error_code = some (ErrCode.num 401) ∧
      (sm_parse_openai_error s).error_code = some (ErrCode.num 401) ∧
      (lg_parse_openai_error s).user_message ≠ genericUserMsg ∧
      (sm_parse_openai_error s).user_message ≠ genericUserMsg) ∧
    (cond401 s = false → cond429 s = true →
      (lg_parse_openai_error s).error_code = some (ErrCode.num 429) ∧
      (sm_parse_openai_error s).error_code = some (ErrCode.num 429) ∧
      (lg_parse_openai_error s).user_message ≠ genericUserMsg ∧
      (sm_parse_openai_error s).user_message ≠ genericUserMsg) ∧
    (cond401 s = false → cond429 s = false → cond500 s = true →
      (lg_parse_openai_error s).error_code = some (ErrCode.num 500) ∧
      (lg_parse_openai_error s).user_message ≠ genericUserMsg) ∧
    (cond401 s = false → cond429 s = false → cond500 s = false → condBilling s = true →
      (lg_parse_openai_error s).error_code = some (ErrCode.tag "billing") ∧
      (lg_parse_openai_error s).user_message ≠ genericUserMsg) ∧
    (cond401 s = false → cond429 s = false → condBilling s = true →
      (sm_parse_openai_error s).error_code = some (ErrCode.tag "billing") ∧
      (sm_parse_openai_error s).user_message ≠ genericUserMsg) ∧
    (cond401 s = false → cond429 s = false → condBilling s = false →
      (sm_parse_openai_error s).error_code = none ∧
      (sm_parse_openai_error s).user_message = genericUserMsg) := by
  unfold lg_parse_openai_error sm_parse_openai_error
  cases h1 : cond401 s <;> cases h2 : cond429 s <;> cases h3 : cond500 s <;>
    cases h4 : condBilling s <;> cases h5 : condModel s <;>
      simp_all <;> decide

/-- Witness for C5: concrete error strings exercise the 401, 500 and billing
branches, and a pure server-error string falls to the generic message in the
skills_matcher copy (it has no 500 branch). -/
theorem parseOpenaiErrorCategoriesWitness :
    (lg_parse_openai_error ("Error code: 401 - invalid_api_key")).error_code
      = some (ErrCode.num 401) ∧
    (lg_parse_openai_error ("Error code: 500 - internal_error")).error_code
      = some (ErrCode.num 500) ∧
    (sm_parse_openai_error ("insufficient_quota for this account")).error_code
      = some (ErrCode.tag "billing") ∧
    (sm_parse_openai_error ("Error code: 500 - internal_error")).error_code = none :=
  ⟨((parseOpenaiErrorCategories ("Error code: 401 - invalid_api_key")).2.1
      (by decide)).1,
   ((parseOpenaiErrorCategories ("Error code: 500 - internal_error")).2.2.2.1
      (by decide) (by decide) (by decide)).1,
   ((parseOpenaiErrorCategories ("insufficient_quota for this account")).2.2.2.2.2.1
      (by decide) (by decide) (by decide)).1,
   ((parseOpenaiErrorCategories ("Error code: 500 - internal_error")).2.2.2.2.2.2
      (by decide) (by decide) (by decide)).1⟩

/-- Membership in the matched index pairs of the RAG skills comparison:
`(i, j)` was appended exactly when both indices are in range and
`similarity_matrix[i][j]` reaches the threshold. -/
theorem mem_ragPairs_iff (m n : Nat) (sim : Nat → Nat → ℚ) (thr : ℚ) (i j : Nat) :
    (i, j) ∈ ragPairs m n sim thr ↔ i < m ∧ j < n ∧ thr ≤ sim i j := by
  unfold ragPairs
  simp only [List.mem_flatMap, List.mem_filterMap, List.mem_range]
  constructor
  · rintro ⟨a, ha, b, hb, hab⟩
    by_cases h : thr ≤ sim a b
    · rw [if_pos h] at hab
      injection hab with hab
      cases hab
      exact ⟨ha, hb, h⟩
    · rw [if_neg h] at hab
      cases hab
  · rintro ⟨hi, hj, h⟩
    exact ⟨i, hi, j, hj, by rw [if_pos h]⟩

/-- A cv index is absent from every matched pair exactly when none of its
similarities reaches the threshold. -/
theorem ragPairs_fst_absent_iff (m n : Nat) (sim : Nat → Nat → ℚ) (thr : ℚ)
    (i : Nat) (hi : i < m) :
    ((ragPairs m n sim thr).any (fun p => p.1 == i) = false)
      ↔ ∀ j, j < n → sim i j < thr := by
  rw [← Bool.not_eq_true, List.any_eq_true]
  constructor
  · intro h j hj
    by_contra hle
    rw [not_lt] at hle
    exact h ⟨(i, j), (mem_ragPairs_iff m n sim thr i j).mpr ⟨hi, hj, hle⟩, by simp⟩
  · rintro hall ⟨p, hp, hfst⟩
    have hmem := (mem_ragPairs_iff m n sim thr p.1 p.2).mp (by simpa using hp)
    have hpi : p.1 = i := by simpa using hfst
    rw [hpi] at hmem
    exact absurd hmem.2.2 (not_le.mpr (hall p.2 hmem.2.1))

/-- Claim C4: in `compare_skills_tool_with_rag`, a `(cv_skill, job_skill)`
index pair is added to `matched` exactly when its cosine similarity is at
least `similarity_threshold`, and a CV skill whose similarities all miss the
threshold is placed outside `matched` — into `cv_only` or `interesting` —
while a CV skill with some similarity at or above the threshold lands in
`matched`. -/
theorem ragCompareThreshold (cv_skills job_skills : List String)
    (sim : Nat → Nat → ℚ) (jdNear : String → Bool) (thr : ℚ)
    (hm : 0 < cv_skills.length) (hn : 0 < job_skills.length) :
    (∀ i j : Nat,
      (i, j) ∈ (compare_skills_tool_with_rag cv_skills job_skills sim jdNear thr).matchedPairs
        ↔ i < cv_skills.length ∧ j < job_skills.length ∧ thr ≤ sim i j) ∧
    (∀ i : Nat, i < cv_skills.length →
      (((compare_skills_tool_with_rag cv_skills job_skills sim jdNear thr).matchedPairs.any
          (fun p => p.1 == i)) = false ↔ ∀ j, j < job_skills.length → sim i j < thr)) ∧
    (∀ i : Nat, i < cv_skills.length → (∀ j, j < job_skills.length → sim i j < thr) →
      cv_skills.getD i "" ∈
          (compare_skills_tool_with_rag cv_skills job_skills sim jdNear thr).cv_only ∨
      cv_skills.getD i "" ∈
          (compare_skills_tool_with_rag cv_skills job_skills sim jdNear thr).interesting) ∧
    (∀ i : Nat, i < cv_skills.length → (∃ j, j < job_skills.length ∧ thr ≤ sim i j) →
      cv_skills.getD i "" ∈
        (compare_skills_tool_with_rag cv_skills job_skills sim jdNear thr).matched) := by
  refine ⟨?_, ?_, ?_, ?_⟩
  · intro i j
    exact mem_ragPairs_iff cv_skills.length job_skills.length sim thr i j
  · intro i hi
    exact ragPairs_fst_absent_iff cv_skills.length job_skills.length sim thr i hi
  · intro i hi hall
    have hany := (ragPairs_fst_absent_iff cv_skills.length job_skills.length sim
      thr i hi).mpr hall
    have hcv : cv_skills.getD i "" ∈ ragCvOnly cv_skills job_skills.length sim thr := by
      unfold ragCvOnly
      refine List.mem_filterMap.mpr ⟨i, List.mem_range.mpr hi, ?_⟩
      rw [if_neg (by simp [hany])]
    by_cases hint : cv_skills.getD i "" ∈
        ((ragCvOnly cv_skills job_skills.length sim thr).take 20).filter jdNear
    · exact Or.inr hint
    · refine Or.inl (List.mem_filter.mpr ⟨hcv, ?_⟩)
      simp only [List.contains, List.elem_eq_mem, hint]
      decide
  · rintro i hi ⟨j, hj, hsim⟩
    have hmem : (i, j) ∈ ragPairs cv_skills.length job_skills.length sim thr :=
      (mem_ragPairs_iff cv_skills.length job_skills.length sim thr i j).mpr ⟨hi, hj, hsim⟩
    exact List.mem_map.mpr ⟨(i, j), hmem, rfl⟩

/-- Witness for C4: with a similarity matrix identically 1 and threshold 0,
the single CV skill is matched. -/
theorem ragCompareThresholdWitness :
    ("python") ∈ (compare_skills_tool_with_rag ["python"] ["sql"]
      (fun _ _ => 1) (fun _ => false) 0).matched :=
  (ragCompareThreshold ["python"] ["sql"] (fun _ _ => 1) (fun _ => false) 0
      (by decide) (by decide)).2.2.2 0 (by decide) ⟨0, by decide, by decide⟩

/-- Every entry of `dictInsert d k v` is an old entry or the inserted pair. -/
theorem dictInsert_mem (d : List (String × String)) (k v : String)
    (p : String × String) (hp : p ∈ dictInsert d k v) : p ∈ d ∨ p = (k, v) := by
  unfold dictInsert at hp
  split at hp
  · obtain ⟨q, hq, hqe⟩ := List.mem_map.mp hp
    by_cases h : (q.1 == k) = true
    · rw [if_pos h] at hqe
      exact Or.inr hqe.symm
    · rw [if_neg h] at hqe
      exact Or.inl (hqe ▸ hq)
  · rcases List.mem_append.mp hp with h | h
    · exact Or.inl h
    · exact Or.inr (List.mem_singleton.mp h)

/-- The dict built by `match_skills` stores each skill under its own
normalized form: every entry satisfies `normalize value = key`. -/
theorem buildNormDict_inv (skills : List String) :
    ∀ p ∈ buildNormDict skills, normalize p.2 = p.1 := by
  suffices h : ∀ (l : List String) (d : List (String × String)),
      (∀ p ∈ d, normalize p.2 = p.1) →
      ∀ p ∈ l.foldl (fun d s => dictInsert d (normalize s) s) d, normalize p.2 = p.1 by
    exact h skills [] (by simp)
  intro l
  induction l with
  | nil => exact fun d hd p hp => hd p hp
  | cons s t ih =>
    intro d hd p hp
    refine ih (dictInsert d (normalize s) s) ?_ p hp
    intro q hq
    rcases dictInsert_mem d (normalize s) s q hq with h | h
    · exact hd q h
    · rw [h]

/-- When the key is already present, `dictInsert` keeps the key list. -/
theorem dictInsert_keys_replace (d : List (String × String)) (k v : String)
    (h : (d.any (fun p => p.1 == k)) = true) :
    (dictInsert d k v).map Prod.fst = d.map Prod.fst := by
  unfold dictInsert
  rw [if_pos h, List.map_map]
  refine List.map_congr_left ?_
  intro q _
  by_cases hk : (q.1 == k) = true
  · simp only [Function.comp_apply, if_pos hk]
    exact (eq_of_beq hk).symm
  · simp only [Function.comp_apply, if_neg hk]

/-- When the key is absent, `dictInsert` appends it to the key list. -/
theorem dictInsert_keys_append (d : List (String × String)) (k v : String)
    (h : (d.any (fun p => p.1 == k)) = false) :
    (dictInsert d k v).map Prod.fst = d.map Prod.fst ++ [k] := by
  unfold dictInsert
  rw [if_neg (by simp [h]), List.map_append]
  rfl

/-- An absent key is really absent from the key list. -/
theorem any_key_eq_false_not_mem (d : List (String × String)) (k : String)
    (h : (d.any (fun p => p.1 == k)) = false) : k ∉ d.map Prod.fst := by
  intro hk
  obtain ⟨p, hp, hpk⟩ := List.mem_map.mp hk
  have : d.any (fun p => p.1 == k) = true :=
    List.any_eq_true.mpr ⟨p, hp, by rw [hpk]; exact beq_self_eq_true k⟩
  rw [h] at this
  cases this

/-- `dictInsert` preserves distinctness of the keys. -/
theorem dictInsert_keysNodup (d : List (String × String)) (k v : String)
    (h : (d.map Prod.fst).Nodup) : ((dictInsert d k v).map Prod.fst).Nodup := by
  cases hany : d.any (fun p => p.1 == k) with
  | true => rw [dictInsert_keys_replace d k v hany]; exact h
  | false =>
    rw [dictInsert_keys_append d k v hany]
    rw [List.nodup_append]
    exact ⟨h, List.nodup_singleton k,
      fun a ha hk => (List.mem_singleton.mp hk ▸ any_key_eq_false_not_mem d k hany) ha⟩

/-- The normalized keys of the skills dict are distinct. -/
theorem buildNormDict_keysNodup (skills : List String) :
    ((buildNormDict skills).map Prod.fst).Nodup := by
  suffices h : ∀ (l : List String) (d : List (String × String)),
      (d.map Prod.fst).Nodup →
      ((l.foldl (fun d s => dictInsert d (normalize s) s) d).map Prod.fst).Nodup by
    exact h skills [] (by simp)
  intro l
  induction l with
  | nil => exact fun d hd => hd
  | cons s t ih =>
    intro d hd
    exact ih (dictInsert d (normalize s) s) (dictInsert_keysNodup d (normalize s) s hd)

/-- Membership in the key list of `dictInsert`. -/
theorem dictInsert_key_mem (d : List (String × String)) (k v k' : String) :
    k' ∈ (dictInsert d k v).map Prod.fst ↔ k' ∈ d.map Prod.fst ∨ k' = k := by
  cases hany : d.any (fun p => p.1 == k) with
  | true =>
    rw [dictInsert_keys_replace d k v hany]
    constructor
    · exact Or.inl
    · rintro (h | rfl)
      · exact h
      · obtain ⟨p, hp, hpk⟩ := List.any_eq_true.mp hany
        exact List.mem_map.mpr ⟨p, hp, eq_of_beq hpk⟩
  | false =>
    rw [dictInsert_keys_append d k v hany]
    simp [List.mem_append]

/-- The keys of the skills dict are exactly the normalized input skills. -/
theorem buildNormDict_key_iff (skills : List String) (k : String) :
    k ∈ (buildNormDict skills).map Prod.fst ↔ ∃ s ∈ skills, normalize s = k := by
  suffices h : ∀ (l : List String) (d : List (String × String)),
      (k ∈ (l.foldl (fun d s => dictInsert d (normalize s) s) d).map Prod.fst ↔
        k ∈ d.map Prod.fst ∨ ∃ s ∈ l, normalize s = k) by
    unfold buildNormDict
    rw [h skills []]
    simp
  intro l
  induction l with
  | nil => intro d; simp
  | cons s t ih =>
    intro d
    rw [List.foldl_cons, ih (dictInsert d (normalize s) s), dictInsert_key_mem]
    constructor
    · rintro ((h | rfl) | ⟨a, ha, hak⟩)
      · exact Or.inl h
      · exact Or.inr ⟨s, List.mem_cons_self s t, rfl⟩
      · exact Or.inr ⟨a, List.mem_cons_of_mem s ha, hak⟩
    · rintro (h | ⟨a, ha, hak⟩)
      · exact Or.inl (Or.inl h)
      · rcases List.mem_cons.mp ha with rfl | ha
        · exact Or.inl (Or.inr hak.symm)
        · exact Or.inr ⟨a, ha, hak⟩

/-- In a list with distinct keys, entries are determined by their key. -/
theorem nodupKeys_entry_inj (d : List (String × String))
    (h : (d.map Prod.fst).Nodup) (p q : String × String)
    (hp : p ∈ d) (hq : q ∈ d) (hk : p.1 = q.1) : p = q := by
  induction d with
  | nil => cases hp
  | cons a t ih =>
    rw [List.map_cons, List.nodup_cons] at h
    rcases List.mem_cons.mp hp with rfl | hp'
    · rcases List.mem_cons.mp hq with rfl | hq'
      · rfl
      · exact absurd (by rw [hk]; exact List.mem_map.mpr ⟨q, hq', rfl⟩) h.1
    · rcases List.mem_cons.mp hq with rfl | hq'
      · exact absurd (by rw [← hk]; exact List.mem_map.mpr ⟨p, hp', rfl⟩) h.1
      · exact ih h.2 hp' hq'

/-- In the skills dict, entries are determined by their stored value
(the value fixes the key through `normalize`). -/
theorem buildNormDict_value_inj (skills : List String) (p q : String × String)
    (hp : p ∈ buildNormDict skills) (hq : q ∈ buildNormDict skills)
    (hv : p.2 = q.2) : p = q := by
  refine nodupKeys_entry_inj _ (buildNormDict_keysNodup skills) p q hp hq ?_
  rw [← buildNormDict_inv skills p hp, ← buildNormDict_inv skills q hq, hv]

/-- The relation of `match_skills` is reflexive: a key always relates to
itself (the `cv_key == job_key` disjunct). -/
theorem skillRel_self (k : String) : skillRel k k = true := by
  simp [skillRel]

/-- `findJobMatch` returns `none` exactly when the key relates to no job
key — the first loop's `found_match` stays false. -/
theorem findJobMatch_eq_none_iff (ck : String) (jd : List (String × String)) :
    findJobMatch ck jd = none ↔ ∀ q ∈ jd, skillRel ck q.1 = false := by
  induction jd with
  | nil => simp [findJobMatch]
  | cons a t ih =>
    obtain ⟨jk, jo⟩ := a
    constructor
    · intro h q hq
      by_cases h1 : (ck == jk) = true
      · rw [findJobMatch, if_pos h1] at h; cases h
      · by_cases h2 : (pyIn ck jk || pyIn jk ck) = true
        · rw [findJobMatch, if_neg h1, if_pos h2] at h; cases h
        · rw [findJobMatch, if_neg h1, if_neg h2] at h
          rcases List.mem_cons.mp hq with rfl | hq
          · simp only [skillRel]
            rw [Bool.or_eq_false_iff]
            exact ⟨by rw [Bool.or_eq_false_iff]
                      exact ⟨by simpa using h1, by
                        rcases Bool.or_eq_false_iff.mp (by simpa using h2) with ⟨ha, _⟩
                        exact ha⟩,
                   (Bool.or_eq_false_iff.mp (by simpa using h2)).2⟩
          · exact ih.mp h q hq
    · intro hall
      have hrel : skillRel ck jk = false := hall (jk, jo) (List.mem_cons_self _ _)
      simp only [skillRel] at hrel
      rw [Bool.or_eq_false_iff] at hrel
      obtain ⟨hrel1, hc⟩ := hrel
      rw [Bool.or_eq_false_iff] at hrel1
      obtain ⟨he, hb⟩ := hrel1
      rw [findJobMatch, if_neg (by simp [he]), if_neg (by simp [hb, hc])]
      exact ih.mpr (fun q hq => hall q (List.mem_cons_of_mem _ hq))

/-- Membership in the returned `matched` bucket: exactly the dict values
whose key found a related job key. -/
theorem mem_matchedVals_iff (cvDict jobDict : List (String × String)) (s : String) :
    s ∈ (matchedEntries cvDict jobDict).map (fun t => t.1) ↔
      ∃ p ∈ cvDict, (findJobMatch p.1 jobDict).isSome = true ∧ p.2 = s := by
  unfold matchedEntries
  simp only [List.mem_map, List.mem_filterMap]
  constructor
  · rintro ⟨t, ⟨p, hp, ht⟩, hts⟩
    cases hfm : findJobMatch p.1 jobDict with
    | none => rw [hfm] at ht; cases ht
    | some q =>
      rw [hfm] at ht
      injection ht with ht
      refine ⟨p, hp, by rw [hfm]; rfl, ?_⟩
      rw [← hts, ← ht]
  · rintro ⟨p, hp, hsome, hps⟩
    cases hfm : findJobMatch p.1 jobDict with
    | none => rw [hfm] at hsome; cases hsome
    | some q => exact ⟨(p.2, q.1, q.2), ⟨p, hp, by rw [hfm]; rfl⟩, hps⟩

/-- Membership in the loop's `cv_only` list: exactly the dict values whose
key found no related job key. -/
theorem mem_cvOnlyLoop_iff (cvDict jobDict : List (String × String)) (s : String) :
    s ∈ cvOnlyLoop cvDict jobDict ↔
      ∃ p ∈ cvDict, findJobMatch p.1 jobDict = none ∧ p.2 = s := by
  unfold cvOnlyLoop
  simp only [List.mem_filterMap]
  constructor
  · rintro ⟨p, hp, hps⟩
    cases hfm : findJobMatch p.1 jobDict with
    | none =>
      rw [hfm] at hps
      simp only [Option.isSome_none, Bool.false_eq_true, if_false] at hps
      injection hps with hps
      exact ⟨p, hp, hfm, hps⟩
    | some q =>
      rw [hfm] at hps
      simp only [Option.isSome_some, if_true] at hps
      cases hps
  · rintro ⟨p, hp, hfm, hps⟩
    exact ⟨p, hp, by rw [hfm]; simp [hps]⟩

/-- Membership in the `job_only` bucket: exactly the job dict values whose
key relates to no cv key. -/
theorem mem_jobOnlyLoop_iff (cvDict jobDict : List (String × String)) (s : String) :
    s ∈ jobOnlyLoop cvDict jobDict ↔
      ∃ q ∈ jobDict, (cvDict.any (fun c => skillRel c.1 q.1)) = false ∧ q.2 = s := by
  unfold jobOnlyLoop
  simp only [List.mem_filterMap]
  constructor
  · rintro ⟨q, hq, hqs⟩
    cases hany : cvDict.any (fun c => skillRel c.1 q.1) with
    | true => rw [hany] at hqs; simp at hqs
    | false =>
      rw [hany] at hqs
      simp only [Bool.false_eq_true, if_false] at hqs
      injection hqs with hqs
      exact ⟨q, hq, hany, hqs⟩
  · rintro ⟨q, hq, hany, hqs⟩
    exact ⟨q, hq, by rw [hany]; simp [hqs]⟩

/-- A value stored in the cv dict never appears in `job_only`: its job-side
entry would share the normalized key, which relates to itself. -/
theorem cvValue_not_in_jobOnlyLoop (cv_skills job_skills : List String)
    (p : String × String) (hp : p ∈ buildNormDict cv_skills) :
    p.2 ∉ jobOnlyLoop (buildNormDict cv_skills) (buildNormDict job_skills) := by
  intro hmem
  obtain ⟨q, hq, hany, hqs⟩ :=
    (mem_jobOnlyLoop_iff (buildNormDict cv_skills) (buildNormDict job_skills) p.2).mp hmem
  have hkeys : q.1 = p.1 := by
    rw [← buildNormDict_inv job_skills q hq, ← buildNormDict_inv cv_skills p hp, hqs]
  have : (buildNormDict cv_skills).any (fun c => skillRel c.1 q.1) = true :=
    List.any_eq_true.mpr ⟨p, hp, by rw [hkeys]; exact skillRel_self p.1⟩
  rw [hany] at this
  cases this

/-- Claim C1: the four buckets returned by `match_skills` are pairwise
disjoint; the representative of every distinct normalized CV skill (the cv
dict entry) appears in `matched`, `cv_only` or `interesting` (exactly one of
them, by the disjointness); and a job dict entry appears in `job_only`
exactly when its normalized key is neither equal to, contained in, nor a
container of the normalized form of any CV skill (`skillRel`). -/
theorem matchSkillsBuckets (cv_skills job_skills : List String)
    (interestingOf : String → Bool) :
    ((match_skills cv_skills job_skills interestingOf).matched.Disjoint
        (match_skills cv_skills job_skills interestingOf).cv_only ∧
     (match_skills cv_skills job_skills interestingOf).matched.Disjoint
        (match_skills cv_skills job_skills interestingOf).interesting ∧
     (match_skills cv_skills job_skills interestingOf).matched.Disjoint
        (match_skills cv_skills job_skills interestingOf).job_only ∧
     (match_skills cv_skills job_skills interestingOf).cv_only.Disjoint
        (match_skills cv_skills job_skills interestingOf).interesting ∧
     (match_skills cv_skills job_skills interestingOf).cv_only.Disjoint
        (match_skills cv_skills job_skills interestingOf).job_only ∧
     (match_skills cv_skills job_skills interestingOf).interesting.Disjoint
        (match_skills cv_skills job_skills interestingOf).job_only) ∧
    (∀ p ∈ buildNormDict cv_skills,
      p.2 ∈ (match_skills cv_skills job_skills interestingOf).matched ∨
      p.2 ∈ (match_skills cv_skills job_skills interestingOf).cv_only ∨
      p.2 ∈ (match_skills cv_skills job_skills interestingOf).interesting) ∧
    (∀ q ∈ buildNormDict job_skills,
      (q.2 ∈ (match_skills cv_skills job_skills interestingOf).job_only ↔
        ∀ s ∈ cv_skills, skillRel (normalize s) q.1 = false)) := by
  have hM : (match_skills cv_skills job_skills interestingOf).matched
      = (matchedEntries (buildNormDict cv_skills) (buildNormDict job_skills)).map
          (fun t => t.1) := rfl
  have hI : (match_skills cv_skills job_skills interestingOf).interesting
      = (cvOnlyLoop (buildNormDict cv_skills) (buildNormDict job_skills)).filter
          interestingOf := rfl
  have hC : (match_skills cv_skills job_skills interestingOf).cv_only
      = (cvOnlyLoop (buildNormDict cv_skills) (buildNormDict job_skills)).filter
          (fun s =>
            !(((cvOnlyLoop (buildNormDict cv_skills) (buildNormDict job_skills)).filter
                interestingOf).contains s)) := rfl
  have hJ : (match_skills cv_skills job_skills interestingOf).job_only
      = jobOnlyLoop (buildNormDict cv_skills) (buildNormDict job_skills) := rfl
  have hMC : ∀ s,
      s ∈ (matchedEntries (buildNormDict cv_skills) (buildNormDict job_skills)).map
        (fun t => t.1) →
      s ∈ cvOnlyLoop (buildNormDict cv_skills) (buildNormDict job_skills) → False := by
    intro s hs hcs
    obtain ⟨p, hp, hpsome, hps⟩ := (mem_matchedVals_iff _ _ s).mp hs
    obtain ⟨p', hp', hpnone, hps'⟩ := (mem_cvOnlyLoop_iff _ _ s).mp hcs
    have hpp : p = p' :=
      buildNormDict_value_inj cv_skills p p' hp hp' (by rw [hps, hps'])
    rw [hpp, hpnone] at hpsome
    cases hpsome
  refine ⟨⟨?_, ?_, ?_, ?_, ?_, ?_⟩, ?_, ?_⟩
  · intro s hs hc
    rw [hM] at hs
    rw [hC] at hc
    exact hMC s hs (List.mem_filter.mp hc).1
  · intro s hs hi
    rw [hM] at hs
    rw [hI] at hi
    exact hMC s hs (List.mem_filter.mp hi).1
  · intro s hs hj
    rw [hM] at hs
    rw [hJ] at hj
    obtain ⟨p, hp, _, hps⟩ := (mem_matchedVals_iff _ _ s).mp hs
    exact cvValue_not_in_jobOnlyLoop cv_skills job_skills p hp (by rw [hps]; exact hj)
  · intro s hc hi
    rw [hC] at hc
    rw [hI] at hi
    have h2 := (List.mem_filter.mp hc).2
    simp [hi] at h2
  · intro s hc hj
    rw [hC] at hc
    rw [hJ] at hj
    obtain ⟨p, hp, _, hps⟩ :=
      (mem_cvOnlyLoop_iff _ _ s).mp (List.mem_filter.mp hc).1
    exact cvValue_not_in_jobOnlyLoop cv_skills job_skills p hp (by rw [hps]; exact hj)
  · intro s hi hj
    rw [hI] at hi
    rw [hJ] at hj
    obtain ⟨p, hp, _, hps⟩ :=
      (mem_cvOnlyLoop_iff _ _ s).mp (List.mem_filter.mp hi).1
    exact cvValue_not_in_jobOnlyLoop cv_skills job_skills p hp (by rw [hps]; exact hj)
  · intro p hp
    cases hfm : findJobMatch p.1 (buildNormDict job_skills) with
    | some q =>
      left
      rw [hM]
      exact (mem_matchedVals_iff _ _ _).mpr ⟨p, hp, by rw [hfm]; rfl, rfl⟩
    | none =>
      have hcl : p.2 ∈ cvOnlyLoop (buildNormDict cv_skills) (buildNormDict job_skills) :=
        (mem_cvOnlyLoop_iff _ _ _).mpr ⟨p, hp, hfm, rfl⟩
      by_cases hi : p.2 ∈
          (cvOnlyLoop (buildNormDict cv_skills) (buildNormDict job_skills)).filter
            interestingOf
      · right; right
        rw [hI]
        exact hi
      · right; left
        rw [hC]
        refine List.mem_filter.mpr ⟨hcl, ?_⟩
        simp only [List.contains, List.elem_eq_mem, hi]
        decide
  · intro q hq
    rw [hJ, mem_jobOnlyLoop_iff]
    constructor
    · rintro ⟨q', hq', hany, hqs⟩
      have hqq : q' = q := buildNormDict_value_inj job_skills q' q hq' hq hqs
      subst hqq
      intro s hs
      have hk : normalize s ∈ (buildNormDict cv_skills).map Prod.fst :=
        (buildNormDict_key_iff cv_skills (normalize s)).mpr ⟨s, hs, rfl⟩
      obtain ⟨c, hc, hck⟩ := List.mem_map.mp hk
      cases hrel : skillRel c.1 q'.1 with
      | false => rw [← hck]; exact hrel
      | true =>
        have hT : (buildNormDict cv_skills).any (fun c => skillRel c.1 q'.1) = true :=
          List.any_eq_true.mpr ⟨c, hc, hrel⟩
        rw [hany] at hT
        cases hT
    · intro hall
      refine ⟨q, hq, ?_, rfl⟩
      cases hany : (buildNormDict cv_skills).any (fun c => skillRel c.1 q.1) with
      | false => rfl
      | true =>
        obtain ⟨c, hc, hrel⟩ := List.any_eq_true.mp hany
        obtain ⟨s, hs, hsk⟩ :=
          (buildNormDict_key_iff cv_skills c.1).mp (List.mem_map.mpr ⟨c, hc, rfl⟩)
        have hf := hall s hs
        rw [hsk, hrel] at hf
        cases hf

/-- Witness for C1: with CV skill `"Python"` and job skill `"Java"`, the
unrelated job entry `("java", "Java")` lands in `job_only`. -/
theorem matchSkillsBucketsWitness :
    ("Java") ∈ (match_skills ["Python"] ["Java"] (fun _ => true)).job_only :=
  ((matchSkillsBuckets ["Python"] ["Java"] (fun _ => true)).2.2
    (("java"), ("Java")) (by decide)).mpr (by decide)

/-- The chunk loop produces nothing once the start position passes the end
(the `while` guard fails). -/
theorem chunkLoop_nil_of_ge (words : List String) (C V f start cid : Nat)
    (h : ¬ start < words.length) : chunkLoop words C V f start cid = [] := by
  cases f with
  | zero => rfl
  | succ f =>
    simp only [chunkLoop]
    rw [if_neg h]

/-- When the loop does **not** break, the window was not clipped
(`end = start + chunk_size`) and it stops short of the document end. -/
theorem chunkLoop_continue_facts (W C V start : Nat) (hVC : V < C)
    (hcont : ¬ (W - V ≤ min (start + C) W - V)) :
    min (start + C) W = start + C ∧ start + C < W := by
  rcases Nat.le_total (start + C) W with h | h
  · rw [min_eq_left h] at hcont ⊢
    exact ⟨rfl, by omega⟩
  · rw [min_eq_right h] at hcont
    omega

/-- When the loop breaks, the chunk just emitted ends exactly at the last
word: `start >= len(words) - overlap` forces `end = len(words)`. -/
theorem chunkLoop_break_facts (W C V start : Nat) (hVC : V < C) (hVW : V < W)
    (hbrk : W - V ≤ min (start + C) W - V) : min (start + C) W = W := by
  rcases Nat.le_total (start + C) W with h | h
  · rw [min_eq_left h] at hbrk ⊢
    omega
  · rw [min_eq_right h]

/-- Coverage invariant of the chunk loop: with enough fuel, every word index
from the current start to the end of the document is inside some emitted
chunk. -/
theorem chunkLoop_covers (words : List String) (C V : Nat) (hVC : V < C)
    (hVW : V < words.length) :
    ∀ (fuel start cid i : Nat), start < words.length →
      words.length ≤ start + fuel → start ≤ i → i < words.length →
      ∃ ch ∈ chunkLoop words C V fuel start cid,
        ch.start_word ≤ i ∧ i < ch.end_word := by
  intro fuel
  induction fuel with
  | zero =>
    intro start cid i h1 h2 h3 h4
    omega
  | succ f ih =>
    intro start cid i h1 h2 h3 h4
    simp only [chunkLoop]
    rw [if_pos h1]
    by_cases hbrk : words.length - V ≤ min (start + C) words.length - V
    · rw [if_pos hbrk]
      have he := chunkLoop_break_facts words.length C V start hVC hVW hbrk
      refine ⟨_, List.mem_singleton.mpr rfl, ?_, ?_⟩
      · exact h3
      · dsimp only
        omega
    · rw [if_neg hbrk]
      obtain ⟨he, hlt⟩ := chunkLoop_continue_facts words.length C V start hVC hbrk
      by_cases hi : i < min (start + C) words.length
      · exact ⟨_, List.mem_cons_self _ _, h3, hi⟩
      · obtain ⟨ch, hch, hb1, hb2⟩ :=
          ih (min (start + C) words.length - V) (cid + 1) i
            (by omega) (by omega) (by omega) h4
        exact ⟨ch, List.mem_cons_of_mem _ hch, hb1, hb2⟩

/-- Adjacency invariant of the chunk loop: each next chunk starts exactly
`overlap` words before the current chunk ends, starts no earlier than the
current chunk, and ends no earlier than the current chunk. -/
theorem chunkLoop_chain (words : List String) (C V : Nat) (hVC : V < C) :
    ∀ (fuel start cid : Nat),
      List.Chain'
        (fun a b => b.start_word + V = a.end_word ∧ a.start_word ≤ b.start_word ∧
          a.end_word ≤ b.end_word)
        (chunkLoop words C V fuel start cid) := by
  intro fuel
  induction fuel with
  | zero =>
    intro start cid
    exact List.chain'_nil
  | succ f ih =>
    intro start cid
    by_cases hs : start < words.length
    · simp only [chunkLoop]
      rw [if_pos hs]
      by_cases hbrk : words.length - V ≤ min (start + C) words.length - V
      · rw [if_pos hbrk]
        exact List.chain'_singleton _
      · rw [if_neg hbrk]
        obtain ⟨he, hlt⟩ := chunkLoop_continue_facts words.length C V start hVC hbrk
        rw [List.chain'_cons']
        refine ⟨?_, ih _ _⟩
        intro b hb
        cases f with
        | zero => simp [chunkLoop] at hb
        | succ f2 =>
          by_cases h2 : min (start + C) words.length - V < words.length
          · simp only [chunkLoop] at hb
            rw [if_pos h2] at hb
            split at hb <;>
            · simp only [List.head?_cons, Option.mem_def, Option.some.injEq] at hb
              subst hb
              refine ⟨?_, ?_, ?_⟩
              · dsimp only
                omega
              · dsimp only
                omega
              · dsimp only
                refine le_min ?_ ?_ <;> omega
          · rw [chunkLoop_nil_of_ge words C V (f2 + 1) _ _ h2] at hb
            simp at hb
    · rw [chunkLoop_nil_of_ge words C V (f + 1) start cid hs]
      exact List.chain'_nil

/-- The chunk loop is fuel-independent once the fuel covers the remaining
words: each iteration advances the start by `chunk_size - overlap ≥ 1`, so
the loop terminates and any sufficient fuel computes the same list. -/
theorem chunkLoop_fuel_indep (words : List String) (C V : Nat) (hVC : V < C) :
    ∀ (f₁ f₂ start cid : Nat), words.length ≤ start + f₁ →
      words.length ≤ start + f₂ →
      chunkLoop words C V f₁ start cid = chunkLoop words C V f₂ start cid := by
  intro f₁
  induction f₁ using Nat.strong_induction_on with
  | _ f₁ ih =>
    intro f₂ start cid h1 h2
    by_cases hs : start < words.length
    · obtain ⟨a, rfl⟩ : ∃ a, f₁ = a + 1 := ⟨f₁ - 1, by omega⟩
      obtain ⟨b, rfl⟩ : ∃ b, f₂ = b + 1 := ⟨f₂ - 1, by omega⟩
      simp only [chunkLoop]
      rw [if_pos hs, if_pos hs]
      by_cases hbrk : words.length - V ≤ min (start + C) words.length - V
      · rw [if_pos hbrk, if_pos hbrk]
      · rw [if_neg hbrk, if_neg hbrk]
        obtain ⟨he, hlt⟩ := chunkLoop_continue_facts words.length C V start hVC hbrk
        congr 1
        exact ih a (by omega) b (min (start + C) words.length - V) (cid + 1)
          (by omega) (by omega)
    · rw [chunkLoop_nil_of_ge words C V f₁ start cid hs,
        chunkLoop_nil_of_ge words C V f₂ start cid hs]

/-- The fallback text-splitter loop is fuel-independent once the fuel covers
the remaining characters: each iteration advances the start by
`chunk_size - chunk_overlap ≥ 1`. -/
theorem splitTextLoop_fuel_indep (text : List Char) (C V : Nat) (hVC : V < C) :
    ∀ (f₁ f₂ start : Nat), text.length ≤ start + f₁ → text.length ≤ start + f₂ →
      splitTextLoop text C V f₁ start = splitTextLoop text C V f₂ start := by
  intro f₁
  induction f₁ using Nat.strong_induction_on with
  | _ f₁ ih =>
    intro f₂ start h1 h2
    by_cases hs : start < text.length
    · obtain ⟨a, rfl⟩ : ∃ a, f₁ = a + 1 := ⟨f₁ - 1, by omega⟩
      obtain ⟨b, rfl⟩ : ∃ b, f₂ = b + 1 := ⟨f₂ - 1, by omega⟩
      simp only [splitTextLoop]
      rw [if_pos hs, if_pos hs]
      congr 1
      exact ih a (by omega) b (start + C - V) (by omega) (by omega)
    · cases f₁ with
      | zero =>
        cases f₂ with
        | zero => rfl
        | succ b =>
          simp only [splitTextLoop]
          rw [if_neg hs]
      | succ a =>
        cases f₂ with
        | zero =>
          simp only [splitTextLoop]
          rw [if_neg hs]
        | succ b =>
          simp only [splitTextLoop]
          rw [if_neg hs, if_neg hs]

/-- Claim C6: whenever the text has more words than `chunk_size` and
`chunk_size > overlap`, the chunks of `split_document_into_chunks` cover
every word index — none is dropped, including at the end — and every pair of
consecutive chunks shares exactly `overlap` word indices. -/
theorem splitDocumentCoverageOverlap (text : String) (chunk_size overlap : Nat)
    (hVC : overlap < chunk_size) (hCW : chunk_size < (pySplit text).length) :
    (∀ i, i < (pySplit text).length →
      ∃ ch ∈ split_document_into_chunks text chunk_size overlap,
        ch.start_word ≤ i ∧ i < ch.end_word) ∧
    List.Chain'
      (fun a b => ((Finset.Ico a.start_word a.end_word) ∩
          (Finset.Ico b.start_word b.end_word)).card = overlap)
      (split_document_into_chunks text chunk_size overlap) := by
  have hW : ¬ ((pySplit text).length ≤ chunk_size) := by omega
  constructor
  · intro i hi
    have hcov := chunkLoop_covers (pySplit text) chunk_size overlap hVC (by omega)
      (pySplit text).length 0 0 i (by omega) (by omega) (Nat.zero_le i) hi
    unfold split_document_into_chunks
    rw [if_neg hW]
    exact hcov
  · unfold split_document_into_chunks
    rw [if_neg hW]
    refine List.Chain'.imp ?_
      (chunkLoop_chain (pySplit text) chunk_size overlap hVC
        (pySplit text).length 0 0)
    rintro a b ⟨h1, h2, h3⟩
    rw [Finset.Ico_inter_Ico, max_eq_right h2, min_eq_left h3, Nat.card_Ico]
    omega

/-- Witness for C6: the five-word text `"a b c d e"` with chunk size 2 and
overlap 1 satisfies the hypotheses, so its chunks cover all five word
indices and consecutive chunks share exactly one word. -/
theorem splitDocumentCoverageOverlapWitness :
    1 < 2 ∧ 2 < (pySplit ("a b c d e")).length ∧
    ((∀ i, i < (pySplit ("a b c d e")).length →
      ∃ ch ∈ split_document_into_chunks ("a b c d e") 2 1,
        ch.start_word ≤ i ∧ i < ch.end_word) ∧
    List.Chain'
      (fun a b => ((Finset.Ico a.start_word a.end_word) ∩
          (Finset.Ico b.start_word b.end_word)).card = 1)
      (split_document_into_chunks ("a b c d e") 2 1)) :=
  ⟨by decide, by decide,
    splitDocumentCoverageOverlap ("a b c d e") 2 1 (by decide) (by decide)⟩

/-- Claim C7: both chunkers are total under `chunk_size > overlap`: each
loop iteration advances the start position by at least
`chunk_size - overlap ≥ 1`, so the loops stabilise — any fuel covering the
remaining input computes the same result — and the top-level functions
compute that stable value. -/
theorem chunkersTerminate (chunk_size overlap : Nat) (h : overlap < chunk_size) :
    (∀ (words : List String) (f₁ f₂ start cid : Nat),
      words.length ≤ start + f₁ → words.length ≤ start + f₂ →
      chunkLoop words chunk_size overlap f₁ start cid
        = chunkLoop words chunk_size overlap f₂ start cid) ∧
    (∀ (text : List Char) (f₁ f₂ start : Nat),
      text.length ≤ start + f₁ → text.length ≤ start + f₂ →
      splitTextLoop text chunk_size overlap f₁ start
        = splitTextLoop text chunk_size overlap f₂ start) ∧
    (∀ (text : String) (f : Nat), (pySplit text).length ≤ f →
      chunk_size < (pySplit text).length →
      split_document_into_chunks text chunk_size overlap
        = chunkLoop (pySplit text) chunk_size overlap f 0 0) ∧
    (∀ (text : String) (f : Nat), text.toList.length ≤ f →
      split_text chunk_size overlap text
        = splitTextLoop text.toList chunk_size overlap f 0) := by
  refine ⟨fun words => chunkLoop_fuel_indep words chunk_size overlap h,
    fun text => splitTextLoop_fuel_indep text chunk_size overlap h, ?_, ?_⟩
  · intro text f hf hlen
    unfold split_document_into_chunks
    rw [if_neg (by omega)]
    exact chunkLoop_fuel_indep (pySplit text) chunk_size overlap h
      (pySplit text).length f 0 0 (by omega) (by omega)
  · intro text f hf
    unfold split_text
    exact splitTextLoop_fuel_indep text.toList chunk_size overlap h
      (text.toList.length + 1) f 0 (by omega) (by omega)

/-- Witness for C7: with chunk size 2 and overlap 1 on a three-word
document, fuels 3 and 5 (both sufficient) give the same chunks. -/
theorem chunkersTerminateWitness :
    chunkLoop [("a"), ("b"), ("c")] 2 1 3 0 0
      = chunkLoop [("a"), ("b"), ("c")] 2 1 5 0 0 :=
  (chunkersTerminate 2 1 (by decide)).1 [("a"), ("b"), ("c")] 3 5 0 0
    (by decide) (by decide)

end ResumeOpt
